import Mathlib

/-!
# Shallow embedding of `contracts/market-simple/src/sale.rs`

This file embeds the settlement core of the NFT marketplace contract:
the listing registry (`add_sale`, `update_price`, `remove_sale`, `get_sale`),
the purchase coordinator (`purchase`, `process_purchase`) and the settlement
callback (`resolve_purchase`).

Modelling conventions:
* `AccountId`, `TokenId` and listing keys are `String`; `U128`/`u128` amounts
  are `Nat` with an explicit `% 2 ^ 128` where the source performs wrapping
  arithmetic (release-mode `+` on `u128`).
* Rust `HashMap`s and the persistent `LookupMap` are association lists with
  first-key-wins lookup and replace-on-insert.
* A contract method that can panic (`assert!`, `expect`, `unwrap`) is a
  function into `Except MError _` (or `Option _` for the callback); an error
  models the panic.  On NEAR a panic aborts the receipt and reverts every
  state write the method made, so an `Except.error` result carries no state:
  the caller keeps the pre-call state.
* Cross-contract promises (`nft_transfer`, `ft_transfer`, native `transfer`)
  are recorded as `Action` values; the settled result of the ownership
  transfer that `resolve_purchase` inspects via `env::promise_result(0)` is
  the `ExtResult` argument, with JSON parsing of the payload abstracted as
  an `Option Payout`.
-/

set_option autoImplicit false

namespace Market

/-- A bid (`struct Bid`): reserved, never consumed in scope. -/
structure Bid where
  owner_id : String
  price : Nat
  deriving DecidableEq, Repr

/-- A listed sale (`struct Sale`): owner, custody-service approval id,
`conditions : HashMap<FungibleTokenId, U128>` mapping a currency to its
price, and the unused `bids` map. -/
structure Sale where
  owner_id : String
  approval_id : Nat
  conditions : List (String × Nat)
  bids : List (String × Bid)
  deriving DecidableEq, Repr

/-- One entry of `SaleArgs.prices` (`struct Price`): both fields optional. -/
structure Price where
  price : Option Nat
  ft_token_id : Option String
  deriving DecidableEq, Repr

/-- Contract state: the durable `sales` map (key → `Sale`) and the set of
accounts holding a storage deposit (`storage_deposits`). -/
structure State where
  sales : List (String × Sale)
  storage_deposits : List String
  deriving DecidableEq, Repr

/-- Panic taxonomy of the embedded methods, following the messages in the
source: `Precondition` (missing deposit, wrong currency, payment mismatch),
`Unauthorized` (`"Must be sale owner"`), `NotFound` (`"No sale"`, and the
`unwrap` of a missing condition inside `process_purchase`). -/
inductive MError where
  | Precondition
  | Unauthorized
  | NotFound
  deriving DecidableEq, Repr

/-- Outgoing cross-contract calls recorded by the embedding. -/
inductive Action where
  | nearTransfer (receiver : String) (amount : Nat)
  | ftTransfer (token : String) (receiver : String) (amount : Nat)
  deriving DecidableEq, Repr

/-- First-occurrence lookup in an association list (`HashMap::get`,
`LookupMap::get`). -/
def alLookup {α : Type} (k : String) : List (String × α) → Option α
  | [] => none
  | (k', v) :: t => if k' = k then some v else alLookup k t

/-- Insert-or-replace (`HashMap::insert`, `LookupMap::insert`): replaces the
first binding of `k` in place, otherwise appends. -/
def alInsert {α : Type} (k : String) (v : α) : List (String × α) → List (String × α)
  | [] => [(k, v)]
  | (k', v') :: t => if k' = k then (k, v) :: t else (k', v') :: alInsert k v t

/-- Remove returning the removed value (`LookupMap::remove`): drops the first
binding of `k` and yields it together with the remaining list. -/
def alRemoveGet {α : Type} (k : String) : List (String × α) → Option (α × List (String × α))
  | [] => none
  | (k', v) :: t =>
    if k' = k then some (v, t)
    else (alRemoveGet k t).map fun p => (p.1, (k', v) :: p.2)

/-- The listing key `format!("{}:{}", contract_id, token_id)`. -/
def saleKey (nft_contract_id token_id : String) : String :=
  nft_contract_id ++ ":" ++ token_id

/-- One iteration of the `for item in prices` loop of `add_sale`
(sale.rs lines 64–85): a present `ft_token_id` keys the entry, an absent one
keys it under `"near"`; a present `price` is stored, an absent one stores 0. -/
def priceStep (conditions : List (String × Nat)) (item : Price) : List (String × Nat) :=
  match item.ft_token_id with
  | some ft_token_id =>
    match item.price with
    | some price => alInsert ft_token_id price conditions
    | none => alInsert ft_token_id 0 conditions
  | none =>
    match item.price with
    | some price => alInsert "near" price conditions
    | none => alInsert "near" 0 conditions

/-- The conditions map built by `add_sale` from the ordered `prices` list. -/
def buildConditions (prices : List Price) : List (String × Nat) :=
  prices.foldl priceStep []

/-- `add_sale` (sale.rs lines 43–100).  Asserts that `owner_id` — the
argument, not the caller — holds a storage deposit, then unconditionally
inserts the new `Sale` at the listing key.  The caller
(`env::predecessor_account_id()`) is never read. -/
def add_sale (caller : String) (st : State) (nft_contract_id token_id owner_id : String)
    (approval_id : Nat) (prices : List Price) : Except MError State :=
  if st.storage_deposits.contains owner_id then
    Except.ok { st with
      sales := alInsert (saleKey nft_contract_id token_id)
        { owner_id := owner_id
          approval_id := approval_id
          conditions := buildConditions prices
          bids := [] } st.sales }
  else Except.error MError.Precondition

/-- `update_price` (sale.rs lines 102–119): fetch the sale (`"No sale"`),
require the caller to be its owner (`"Must be sale owner"`), then rewrite the
one currency's price and store the sale back. -/
def update_price (caller : String) (st : State) (nft_contract_id token_id : String)
    (ft_token_id : String) (price : Nat) : Except MError State :=
  let key := saleKey nft_contract_id token_id
  match alLookup key st.sales with
  | none => Except.error MError.NotFound
  | some sale =>
    if caller = sale.owner_id then
      Except.ok { st with
        sales := alInsert key
          { sale with conditions := alInsert ft_token_id price sale.conditions } st.sales }
    else Except.error MError.Unauthorized

/-- `remove_sale` (sale.rs lines 122–133): the source removes the entry and
only then asserts ownership; a failed assertion panics and NEAR reverts the
removal, so the `Unauthorized` branch discards the mutated list. -/
def remove_sale (caller : String) (st : State) (nft_contract_id token_id : String) :
    Except MError State :=
  match alRemoveGet (saleKey nft_contract_id token_id) st.sales with
  | none => Except.error MError.NotFound
  | some (sale, rest) =>
    if caller = sale.owner_id then Except.ok { st with sales := rest }
    else Except.error MError.Unauthorized

/-- `get_sale` (sale.rs lines 268–273). -/
def get_sale (st : State) (nft_contract_id token_id : String) : Except MError Sale :=
  match alLookup (saleKey nft_contract_id token_id) st.sales with
  | none => Except.error MError.NotFound
  | some sale => Except.ok sale

/-- The pending settlement issued by `process_purchase`: the
`nft_transfer(buyer, token, seller, None, price)` request to the custody
contract, chained with the `resolve_purchase(ft_token_id, buyer, sale)`
continuation.  It exists only after the listing is gone from the registry. -/
structure Pending where
  nft_contract_id : String
  token_id : String
  seller_id : String
  ft_token_id : String
  buyer_id : String
  price : Nat
  sale : Sale
  deriving DecidableEq, Repr

/-- `process_purchase` (sale.rs lines 157–187): remove the sale from the
registry (the reservation, `expect "No sale"`), read the price for the
settlement currency (`unwrap`), then issue the external transfer request with
its continuation. -/
def process_purchase (st : State) (nft_contract_id token_id ft_token_id buyer_id : String) :
    Except MError (State × Pending) :=
  match alRemoveGet (saleKey nft_contract_id token_id) st.sales with
  | none => Except.error MError.NotFound
  | some (sale, rest) =>
    match alLookup ft_token_id sale.conditions with
    | none => Except.error MError.NotFound
    | some price =>
      Except.ok ({ st with sales := rest },
        { nft_contract_id := nft_contract_id
          token_id := token_id
          seller_id := sale.owner_id
          ft_token_id := ft_token_id
          buyer_id := buyer_id
          price := price
          sale := sale })

/-- `purchase` (sale.rs lines 136–154): look the sale up (`"No sale"`),
read its native price (`"Not for sale in NEAR"`), require the attached
deposit to equal it exactly, then delegate to `process_purchase` with
currency `"near"` and the caller as buyer. -/
def purchase (caller : String) (deposit : Nat) (st : State)
    (nft_contract_id token_id : String) : Except MError (State × Pending) :=
  let key := saleKey nft_contract_id token_id
  match alLookup key st.sales with
  | none => Except.error MError.NotFound
  | some sale =>
    match alLookup "near" sale.conditions with
    | none => Except.error MError.Precondition
    | some price =>
      if deposit = price then
        process_purchase st nft_contract_id token_id "near" caller
      else Except.error MError.Precondition

/-- The settled result of the external ownership-transfer request as seen by
`env::promise_result(0)`.  `Successful none` is a payload that does not parse
as a payout mapping (`serde_json::from_slice::<Payout>(..).ok()` is `None`);
`Successful (some payout)` is a payload parsing to that mapping. -/
inductive ExtResult where
  | Failed
  | Successful (parsed : Option (List (String × Nat)))
  deriving DecidableEq, Repr

/-- `payout.values().map(|a| *a).reduce(|a, b| a + b)`: `none` on an empty
iterator, otherwise the wrapping `u128` sum. -/
def reduceSum : List Nat → Option Nat
  | [] => none
  | a :: rest => some (rest.foldl (fun x y => (x + y) % 2 ^ 128) a)

/-- The `payout_option` computation of `resolve_purchase` (sale.rs lines
202–225).  Outer `none` models a panic: the source takes
`reduce(..).unwrap()` over the payout amounts, which panics when the parsed
payout mapping is empty.  Inner value: `some payout` when the payout is
accepted, `none` when it is rejected (failed result, unparsable payload,
more than 8 entries, or wrapped amount sum different from `price`). -/
def computePayoutOption (price : Nat) (res : ExtResult) :
    Option (Option (List (String × Nat))) :=
  match res with
  | ExtResult.Failed => some none
  | ExtResult.Successful none => some none
  | ExtResult.Successful (some payout) =>
    if payout.length > 8 then some none
    else
      match reduceSum (payout.map Prod.snd) with
      | none => none
      | some sum => if sum = price then some (some payout) else some none

/-- `resolve_purchase` (sale.rs lines 192–266): read the price for the
settlement currency (`unwrap`), validate the payout; on rejection refund the
buyer natively (when the currency is `"near"`) and return the full price as
the unconsumed amount; on acceptance issue one transfer per payout pair and
return `price` (native) or `0` (fungible token).  `none` models a panic of
the callback. -/
def resolve_purchase (ft_token_id buyer_id : String) (sale : Sale) (res : ExtResult) :
    Option (Nat × List Action) :=
  match alLookup ft_token_id sale.conditions with
  | none => none
  | some price =>
    match computePayoutOption price res with
    | none => none
    | some none =>
      if ft_token_id = "near" then
        some (price, [Action.nearTransfer buyer_id price])
      else
        some (price, [])
    | some (some payout) =>
      if ft_token_id = "near" then
        some (price, payout.map fun p => Action.nearTransfer p.1 p.2)
      else
        some (0, payout.map fun p => Action.ftTransfer ft_token_id p.1 p.2)

/-! ## Association-list lemmas -/

theorem alLookup_alInsert {α : Type} (k c : String) (v : α) (l : List (String × α)) :
    alLookup c (alInsert k v l) = if k = c then some v else alLookup c l := by
  induction l with
  | nil => simp [alInsert, alLookup]
  | cons hd t ih =>
    obtain ⟨k', v'⟩ := hd
    by_cases hk : k' = k
    · subst hk
      simp only [alInsert, if_pos rfl, alLookup]
      by_cases hc : k' = c
      · subst hc; simp
      · simp [hc, fun h : k' = c => hc h]
    · simp only [alInsert, if_neg hk, alLookup]
      by_cases hc : k' = c
      · subst hc
        have : ¬ k = k' := fun h => hk h.symm
        simp [this]
      · simp [hc, ih]

theorem alRemoveGet_eq_none {α : Type} (k : String) (l : List (String × α)) :
    alRemoveGet k l = none ↔ alLookup k l = none := by
  induction l with
  | nil => simp [alRemoveGet, alLookup]
  | cons hd t ih =>
    obtain ⟨k', v'⟩ := hd
    by_cases hk : k' = k
    · simp [alRemoveGet, alLookup, hk]
    · simp [alRemoveGet, alLookup, hk, Option.map_eq_none', ih]

theorem alRemoveGet_of_alLookup {α : Type} (k : String) (l : List (String × α)) (v : α)
    (h : alLookup k l = some v) :
    ∃ rest, alRemoveGet k l = some (v, rest) := by
  induction l with
  | nil => simp [alLookup] at h
  | cons hd t ih =>
    obtain ⟨k', v'⟩ := hd
    by_cases hk : k' = k
    · rw [alLookup, if_pos hk] at h
      obtain rfl : v' = v := Option.some_inj.mp h
      exact ⟨t, by rw [alRemoveGet, if_pos hk]⟩
    · rw [alLookup, if_neg hk] at h
      obtain ⟨rest, hrest⟩ := ih h
      refine ⟨(k', v') :: rest, ?_⟩
      rw [alRemoveGet, if_neg hk, hrest]
      rfl

theorem alLookup_mem {α : Type} (k : String) (l : List (String × α)) (v : α)
    (h : alLookup k l = some v) : k ∈ l.map Prod.fst := by
  induction l with
  | nil => simp [alLookup] at h
  | cons hd t ih =>
    obtain ⟨k', v'⟩ := hd
    by_cases hk : k' = k
    · simp [hk]
    · rw [alLookup, if_neg hk] at h
      simp [ih h]

theorem alLookup_of_alRemoveGet {α : Type} (k : String) (l rest : List (String × α)) (v : α)
    (hnd : (l.map Prod.fst).Nodup) (h : alRemoveGet k l = some (v, rest)) :
    alLookup k rest = none := by
  induction l generalizing rest with
  | nil => simp [alRemoveGet] at h
  | cons hd t ih =>
    obtain ⟨k', v'⟩ := hd
    simp only [List.map_cons, List.nodup_cons] at hnd
    by_cases hk : k' = k
    · rw [alRemoveGet, if_pos hk] at h
      obtain ⟨-, rfl⟩ := Prod.mk.injEq .. ▸ Option.some_inj.mp h
      rcases hl : alLookup k t with _ | w
      · rfl
      · exact absurd (hk ▸ alLookup_mem k t w hl) hnd.1
    · rw [alRemoveGet, if_neg hk] at h
      rcases hrg : alRemoveGet k t with _ | ⟨w, rest'⟩
      · rw [hrg] at h; simp at h
      · rw [hrg] at h
        simp only [Option.map_some', Option.some_inj, Prod.mk.injEq] at h
        obtain ⟨rfl, rfl⟩ := h
        rw [alLookup, if_neg hk]
        exact ih rest' hnd.2 hrg

/-! ## Spec-side reading of the conditions construction

The following definitions follow the specification's words — "absent currency
defaults to native; absent price defaults to 0; last write wins if the list
contains duplicate currencies" — to be compared with `buildConditions`,
which is translated from the source. -/

/-- Spec-side: the currency an entry is recorded under. -/
def effCurrency (p : Price) : String := p.ft_token_id.getD "near"

/-- Spec-side: the price an entry records. -/
def effPrice (p : Price) : Nat := p.price.getD 0

/-- Spec-side: the price recorded for currency `c` when later entries
overwrite earlier ones — the effective price of the last entry recorded
under `c`, if any. -/
def specLastWrite (c : String) : List Price → Option Nat
  | [] => none
  | p :: ps =>
    (specLastWrite c ps).or (if effCurrency p = c then some (effPrice p) else none)

theorem option_or_assoc {α : Type} (a b c : Option α) :
    (a.or b).or c = a.or (b.or c) := by
  cases a <;> rfl

theorem option_or_none {α : Type} (a : Option α) : a.or none = a := by
  cases a <;> rfl

theorem priceStep_eq_alInsert (conditions : List (String × Nat)) (item : Price) :
    priceStep conditions item = alInsert (effCurrency item) (effPrice item) conditions := by
  obtain ⟨price, ft_token_id⟩ := item
  cases ft_token_id <;> cases price <;> rfl

theorem alLookup_foldl_priceStep (prices : List Price) (acc : List (String × Nat))
    (c : String) :
    alLookup c (prices.foldl priceStep acc) = (specLastWrite c prices).or (alLookup c acc) := by
  induction prices generalizing acc with
  | nil => rfl
  | cons p ps ih =>
    rw [List.foldl_cons, ih, priceStep_eq_alInsert, alLookup_alInsert]
    show _ = ((specLastWrite c ps).or _).or _
    rw [option_or_assoc]
    by_cases h : effCurrency p = c
    · rw [if_pos h, if_pos h]
      rfl
    · rw [if_neg h, if_neg h]
      rfl

/-! ## Sample values used by witnesses and counterexamples -/

/-- A sample listed sale owned by `"alice"`, priced 1000 natively and 500 in
the fungible token `"ft.token"`. -/
def sampleSale : Sale :=
  { owner_id := "alice"
    approval_id := 7
    conditions := [("near", 1000), ("ft.token", 500)]
    bids := [] }

/-- A sample state: `sampleSale` listed under key `"nftc:tok"`, storage
deposits held by `"alice"` and `"bob"`. -/
def sampleState : State :=
  { sales := [("nftc:tok", sampleSale)]
    storage_deposits := ["alice", "bob"] }

/-! ## Claim theorems -/

/-- C8: for every ordered price list passed to `add_sale`, the stored
conditions map is built by processing entries in order; an entry with an
absent currency is recorded under the native currency `"near"`, an entry
with an absent price is recorded with price 0, and when two entries name the
same currency the later entry's price overwrites the earlier one (last write
wins, no rejection): looking any currency up in `buildConditions prices`
yields exactly the spec-side last-write-wins reading of the list. -/
theorem C8_conditions_last_write_wins (prices : List Price) (c : String) :
    alLookup c (buildConditions prices) = specLastWrite c prices := by
  rw [buildConditions, alLookup_foldl_priceStep]
  exact option_or_none _

/-- C1: the claim states that no settled external result makes
`resolve_purchase` abort, and in particular that a payload parsing to an
empty payout mapping (amount sum 0 ≠ price) is Rejected rather than fatal.
The code violates this: `payout.values().map(|a| *a).reduce(|a, b| a + b)`
yields `None` on the empty mapping and the `.unwrap()` panics, aborting the
callback with neither disbursement nor compensation.  This theorem evaluates
the embedding at the failing input: a native sale priced 1000 whose external
result is successful with payload `{}`. -/
theorem C1_empty_payout_aborts_callback :
    resolve_purchase "near" "buyer"
      { owner_id := "seller", approval_id := 1, conditions := [("near", 1000)], bids := [] }
      (ExtResult.Successful (some [])) = none := rfl

/-- C7: the claim states that every rejected result — failure, unparsable
payload, more than 8 entries, or amount sum different from the price — is
compensated in full.  A payload parsing to the empty payout mapping falls
under "sum different from the sale price" (its sum is 0 ≠ 500), yet the code
panics at `reduce(..).unwrap()` before the sum comparison, so no
compensation is issued and the full price is never reported as leftover.
This theorem evaluates the embedding at the failing input: a fungible-token
sale priced 500 whose external result is successful with payload `{}`. -/
theorem C7_empty_payout_not_compensated :
    resolve_purchase "ft.token" "buyer"
      { owner_id := "seller", approval_id := 1, conditions := [("ft.token", 500)], bids := [] }
      (ExtResult.Successful (some [])) = none := rfl

/-- C2 counterexample: the claim states that an accepted payout yields a
consumed/leftover amount of 0 for the native currency as well as for a
fungible-token currency.  For the native currency the code returns `price`,
not 0 (sale.rs line 249): at a native sale priced 1000 with accepted payout
`{seller: 970, platform: 30}` the callback returns 1000. -/
theorem C2_counterexample :
    resolve_purchase "near" "buyer"
      { owner_id := "seller", approval_id := 1, conditions := [("near", 1000)], bids := [] }
      (ExtResult.Successful (some [("seller", 970), ("platform", 30)])) =
      some (1000, [Action.nearTransfer "seller" 970, Action.nearTransfer "platform" 30]) ∧
    (resolve_purchase "near" "buyer"
      { owner_id := "seller", approval_id := 1, conditions := [("near", 1000)], bids := [] }
      (ExtResult.Successful (some [("seller", 970), ("platform", 30)]))).map Prod.fst ≠
      some 0 := by
  constructor
  · decide
  · decide

/-- C2 (amended): for every successful external result whose payload parses
as a payout mapping with at most 8 entries whose (wrapped) amount sum is
exactly the sale price for the settlement currency — the sum hypothesis is
stated via `reduceSum`, which also forces the mapping to be non-empty, since
the code panics on an empty mapping — `resolve_purchase` issues one transfer
per (receiver, amount) pair of exactly that payout; it returns a leftover of
0 when the currency is a fungible token, and returns the full price (unused
for native settlements) when the currency is native. -/
theorem C2_accepted_payout_disbursed (ft_token_id buyer_id : String) (sale : Sale)
    (payout : List (String × Nat)) (price : Nat)
    (hprice : alLookup ft_token_id sale.conditions = some price)
    (hlen : payout.length ≤ 8)
    (hsum : reduceSum (payout.map Prod.snd) = some price) :
    resolve_purchase ft_token_id buyer_id sale (ExtResult.Successful (some payout)) =
      if ft_token_id = "near" then
        some (price, payout.map fun p => Action.nearTransfer p.1 p.2)
      else
        some (0, payout.map fun p => Action.ftTransfer ft_token_id p.1 p.2) := by
  have hlen' : ¬ payout.length > 8 := by omega
  simp [resolve_purchase, hprice, computePayoutOption, hlen', hsum]

/-- Witness for C2: a fungible-token sale priced 500 with accepted payout
`{a: 300, b: 200}` disburses exactly those two token transfers and reports
leftover 0. -/
theorem C2_accepted_payout_disbursed_witness :
    resolve_purchase "ft.token" "buyer"
      { owner_id := "seller", approval_id := 1, conditions := [("ft.token", 500)], bids := [] }
      (ExtResult.Successful (some [("a", 300), ("b", 200)])) =
      some (0, [Action.ftTransfer "ft.token" "a" 300, Action.ftTransfer "ft.token" "b" 200]) := by
  have h := C2_accepted_payout_disbursed "ft.token" "buyer"
    { owner_id := "seller", approval_id := 1, conditions := [("ft.token", 500)], bids := [] }
    [("a", 300), ("b", 200)] 500 (by decide) (by decide) (by decide)
  simpa using h

/-- C3: for every state containing a Sale at a key and every caller
different from that Sale's owner, `remove_sale` and `update_price` on that
key fail Unauthorized.  In the embedding an `Except.error` result carries no
state — a panic reverts every write of the method — so the registry is
unchanged and the Sale is still present with the same contents afterward. -/
theorem C3_nonowner_mutations_unauthorized (caller : String) (st : State)
    (nft_contract_id token_id ft_token_id : String) (price : Nat) (sale : Sale)
    (hs : alLookup (saleKey nft_contract_id token_id) st.sales = some sale)
    (hc : caller ≠ sale.owner_id) :
    remove_sale caller st nft_contract_id token_id = Except.error MError.Unauthorized ∧
    update_price caller st nft_contract_id token_id ft_token_id price =
      Except.error MError.Unauthorized := by
  obtain ⟨rest, hrg⟩ := alRemoveGet_of_alLookup _ _ _ hs
  constructor
  · simp [remove_sale, hrg, hc]
  · simp [update_price, hs, hc]

/-- Witness for C3: `"mallory"` can neither remove nor reprice the listing
owned by `"alice"`. -/
theorem C3_witness :
    remove_sale "mallory" sampleState "nftc" "tok" = Except.error MError.Unauthorized ∧
    update_price "mallory" sampleState "nftc" "tok" "near" 5 =
      Except.error MError.Unauthorized :=
  C3_nonowner_mutations_unauthorized "mallory" sampleState "nftc" "tok" "near" 5
    sampleSale (by decide) (by decide)

/-- C4 counterexample: the claim states that `add_sale` fails with a
Precondition error exactly when the caller lacks a qualifying storage
deposit.  The code checks the `owner_id` argument instead: `"mallory"`,
holding no deposit, successfully creates a listing for `"alice"`, who does. -/
theorem C4_counterexample :
    sampleState.storage_deposits.contains "mallory" = false ∧
    add_sale "mallory" sampleState "nftc" "tok2" "alice" 3 [] =
      Except.ok { sampleState with
        sales := alInsert (saleKey "nftc" "tok2")
          { owner_id := "alice", approval_id := 3, conditions := [], bids := [] }
          sampleState.sales } := by
  constructor
  · decide
  · rfl

/-- C4 (amended): `add_sale` fails with a Precondition error exactly when
the supplied `owner_id` — not the caller — lacks a qualifying storage
deposit; when `owner_id` holds a deposit the Sale is created with `owner_id`
as its owner, whoever the caller is. -/
theorem C4_add_sale_deposit_check (caller : String) (st : State)
    (nft_contract_id token_id owner_id : String) (approval_id : Nat)
    (prices : List Price) :
    (add_sale caller st nft_contract_id token_id owner_id approval_id prices =
        Except.error MError.Precondition ↔
      st.storage_deposits.contains owner_id = false) ∧
    (st.storage_deposits.contains owner_id = true →
      add_sale caller st nft_contract_id token_id owner_id approval_id prices =
        Except.ok { st with
          sales := alInsert (saleKey nft_contract_id token_id)
            { owner_id := owner_id
              approval_id := approval_id
              conditions := buildConditions prices
              bids := [] } st.sales }) := by
  cases h : st.storage_deposits.contains owner_id
  · have h' : owner_id ∉ st.storage_deposits := by simpa using h
    simp [add_sale, h, h']
  · have h' : owner_id ∈ st.storage_deposits := by simpa using h
    simp [add_sale, h, h']

/-- Witness for C4: with `"bob"` holding a deposit, `add_sale` called by the
depositless `"mallory"` on behalf of `"bob"` succeeds and stores the new
sale. -/
theorem C4_witness :
    add_sale "mallory" sampleState "nftc" "tok2" "bob" 9 [] =
      Except.ok { sampleState with
        sales := alInsert (saleKey "nftc" "tok2")
          { owner_id := "bob", approval_id := 9, conditions := buildConditions [], bids := [] }
          sampleState.sales } :=
  (C4_add_sale_deposit_check "mallory" sampleState "nftc" "tok2" "bob" 9 []).2 (by decide)

/-- C6: for every state containing a Sale with a native-currency condition
and every attached payment different from that stored native price,
`purchase` fails with a Precondition error; no mutation precedes the check
(the only earlier steps are lookups), and an `Except.error` result carries
no state, so the listing is still present afterward. -/
theorem C6_payment_mismatch_precondition (caller : String) (deposit : Nat) (st : State)
    (nft_contract_id token_id : String) (sale : Sale) (price : Nat)
    (hs : alLookup (saleKey nft_contract_id token_id) st.sales = some sale)
    (hnear : alLookup "near" sale.conditions = some price)
    (hdep : deposit ≠ price) :
    purchase caller deposit st nft_contract_id token_id =
      Except.error MError.Precondition := by
  simp [purchase, hs, hnear, hdep]

/-- Witness for C6: paying 999 for the 1000-priced sample listing fails. -/
theorem C6_witness :
    purchase "bob" 999 sampleState "nftc" "tok" = Except.error MError.Precondition :=
  C6_payment_mismatch_precondition "bob" 999 sampleState "nftc" "tok" sampleSale 1000
    (by decide) (by decide) (by decide)

/-- C5: for every purchase whose attached payment equals the stored native
price (on a registry with key-unique entries, as the durable map guarantees),
`purchase` succeeds; the Sale is removed from the registry in the returned
state, and the external ownership-transfer request (the returned `Pending`,
carrying buyer, currency and the already-removed Sale) is only issued from
that post-removal state, so every subsequent `purchase`, `remove_sale` or
`get_sale` on the key fails NotFound while the settlement is pending. -/
theorem C5_reservation_before_external_call (caller caller2 caller3 : String)
    (deposit deposit2 : Nat) (st : State) (nft_contract_id token_id : String)
    (sale : Sale) (price : Nat)
    (hnd : (st.sales.map Prod.fst).Nodup)
    (hs : alLookup (saleKey nft_contract_id token_id) st.sales = some sale)
    (hnear : alLookup "near" sale.conditions = some price)
    (hdep : deposit = price) :
    ∃ st' pend,
      purchase caller deposit st nft_contract_id token_id = Except.ok (st', pend) ∧
      alLookup (saleKey nft_contract_id token_id) st'.sales = none ∧
      pend.sale = sale ∧ pend.buyer_id = caller ∧ pend.ft_token_id = "near" ∧
      pend.price = price ∧
      get_sale st' nft_contract_id token_id = Except.error MError.NotFound ∧
      remove_sale caller2 st' nft_contract_id token_id = Except.error MError.NotFound ∧
      purchase caller3 deposit2 st' nft_contract_id token_id =
        Except.error MError.NotFound := by
  obtain ⟨rest, hrg⟩ := alRemoveGet_of_alLookup _ _ _ hs
  have hrest : alLookup (saleKey nft_contract_id token_id) rest = none :=
    alLookup_of_alRemoveGet _ _ _ _ hnd hrg
  refine ⟨{ st with sales := rest },
    { nft_contract_id := nft_contract_id, token_id := token_id,
      seller_id := sale.owner_id, ft_token_id := "near", buyer_id := caller,
      price := price, sale := sale }, ?_, hrest, rfl, rfl, rfl, rfl, ?_, ?_, ?_⟩
  · simp [purchase, hs, hnear, hdep, process_purchase, hrg]
  · simp [get_sale, hrest]
  · simp [remove_sale, (alRemoveGet_eq_none _ _).mpr hrest]
  · simp [purchase, hrest]

/-- Witness for C5: buying the sample listing for its exact native price
1000 reserves it, and `get_sale`, `remove_sale` and a second `purchase` on
the key all fail NotFound while the settlement is pending. -/
theorem C5_witness :
    ∃ st' pend,
      purchase "bob" 1000 sampleState "nftc" "tok" = Except.ok (st', pend) ∧
      alLookup (saleKey "nftc" "tok") st'.sales = none ∧
      pend.sale = sampleSale ∧ pend.buyer_id = "bob" ∧ pend.ft_token_id = "near" ∧
      pend.price = 1000 ∧
      get_sale st' "nftc" "tok" = Except.error MError.NotFound ∧
      remove_sale "carol" st' "nftc" "tok" = Except.error MError.NotFound ∧
      purchase "dave" 1000 st' "nftc" "tok" = Except.error MError.NotFound :=
  C5_reservation_before_external_call "bob" "carol" "dave" 1000 1000 sampleState
    "nftc" "tok" sampleSale 1000 (by decide) (by decide) (by decide) rfl

/-- C9: for every state already containing a Sale at a listing key, a call
to `add_sale` with that same key, by any caller, for any `owner_id` holding
a storage deposit, succeeds and unconditionally replaces the existing Sale
with the new one — whoever owns the existing Sale; there is no Unauthorized
or already-exists failure path on creation. -/
theorem C9_add_sale_replaces_existing (caller : String) (st : State)
    (nft_contract_id token_id owner_id : String) (approval_id : Nat)
    (prices : List Price) (oldSale : Sale)
    (hold : alLookup (saleKey nft_contract_id token_id) st.sales = some oldSale)
    (hdep : st.storage_deposits.contains owner_id = true) :
    ∃ st',
      add_sale caller st nft_contract_id token_id owner_id approval_id prices =
        Except.ok st' ∧
      alLookup (saleKey nft_contract_id token_id) st'.sales =
        some { owner_id := owner_id
               approval_id := approval_id
               conditions := buildConditions prices
               bids := [] } := by
  have hdep' : owner_id ∈ st.storage_deposits := by simpa using hdep
  refine ⟨{ st with
    sales := alInsert (saleKey nft_contract_id token_id)
      { owner_id := owner_id
        approval_id := approval_id
        conditions := buildConditions prices
        bids := [] } st.sales }, ?_, ?_⟩
  · simp [add_sale, hdep']
  · rw [alLookup_alInsert, if_pos rfl]

/-- Witness for C9: `"mallory"` overwrites the sample listing owned by
`"alice"` with a fresh sale owned by `"bob"`. -/
theorem C9_witness :
    ∃ st',
      add_sale "mallory" sampleState "nftc" "tok" "bob" 11 [] = Except.ok st' ∧
      alLookup (saleKey "nftc" "tok") st'.sales =
        some { owner_id := "bob", approval_id := 11,
               conditions := buildConditions [], bids := [] } :=
  C9_add_sale_replaces_existing "mallory" sampleState "nftc" "tok" "bob" 11 []
    sampleSale (by decide) (by decide)

/-- C10: `add_sale` never compares the caller to the `owner_id` argument —
its result is identical for any two callers — and whenever the supplied
`owner_id` holds a storage deposit the call succeeds with `owner_id`, not
the caller, stored as the Sale's owner: any account can create a listing
on behalf of any deposited account. -/
theorem C10_add_sale_ignores_caller (caller caller2 : String) (st : State)
    (nft_contract_id token_id owner_id : String) (approval_id : Nat)
    (prices : List Price) :
    add_sale caller st nft_contract_id token_id owner_id approval_id prices =
      add_sale caller2 st nft_contract_id token_id owner_id approval_id prices ∧
    (st.storage_deposits.contains owner_id = true →
      ∃ st',
        add_sale caller st nft_contract_id token_id owner_id approval_id prices =
          Except.ok st' ∧
        alLookup (saleKey nft_contract_id token_id) st'.sales =
          some { owner_id := owner_id
                 approval_id := approval_id
                 conditions := buildConditions prices
                 bids := [] }) := by
  refine ⟨rfl, fun hdep => ?_⟩
  have hdep' : owner_id ∈ st.storage_deposits := by simpa using hdep
  refine ⟨{ st with
    sales := alInsert (saleKey nft_contract_id token_id)
      { owner_id := owner_id
        approval_id := approval_id
        conditions := buildConditions prices
        bids := [] } st.sales }, ?_, ?_⟩
  · simp [add_sale, hdep']
  · rw [alLookup_alInsert, if_pos rfl]

/-- Witness for C10: the depositless `"mallory"` lists a fresh asset on
behalf of the deposited `"bob"`, and the stored owner is `"bob"`. -/
theorem C10_witness :
    ∃ st',
      add_sale "mallory" sampleState "nftc" "tok3" "bob" 13 [] = Except.ok st' ∧
      alLookup (saleKey "nftc" "tok3") st'.sales =
        some { owner_id := "bob", approval_id := 13,
               conditions := buildConditions [], bids := [] } :=
  (C10_add_sale_ignores_caller "mallory" "anyone" sampleState "nftc" "tok3" "bob"
    13 []).2 (by decide)

end Market
